import Mathlib

/-!
# NewVR firmware: trigger-to-notification pipeline

Shallow embedding of the two Arduino sketches of the repository:

* `src/NewVR/arduino.c`    : button variant (`Button` namespace),
* `src/NewVR/sekigaisen.c` : infrared variant (`Infrared` namespace).

The button sketch is kept in the repository as commented-out text; it is embedded from
that text, statement by statement.

Every call into an external collaborator (radio stack, digital I/O, serial port,
infrared decoder, `delay`) is recorded as an `Effect`; one execution of `loop()` or of a
connection callback maps a state to a new state plus the list of effects it performed, in
program order.
-/

namespace NewVR

/-- Modelled from the spec: the Arduino core header is not under `src/`; `HIGH` is the
pulled-up (inactive) pin level, numerically one. -/
def HIGH : Int := 1

/-- Modelled from the spec: the Arduino core header is not under `src/`; `LOW` is the
asserted pin level of the active-low button, numerically zero. -/
def LOW : Int := 0

/-- Pin of the indicator LED (`#define LED_PIN 13`, both sketches). -/
def LED_PIN : Nat := 13

/-- Pin of the button (`#define BUTTON_PIN 15`, button sketch). -/
def BUTTON_PIN : Nat := 15

/-- Calls into the external collaborators, as they appear in the two sketches. -/
inductive Effect where
  | digitalRead (pin : Nat)
  | irDecode (ready : Bool)
  | irResume
  | serialPrint (text : String)
  | serialPrintln (text : String)
  | setValue (token : String)
  | notify
  | digitalWrite (pin : Nat) (level : Int)
  | delay (ms : Nat)
  deriving DecidableEq, Repr

/-- C conversion of an `int` to `bool`: non-zero is `true`. -/
def intToBool (v : Int) : Bool := decide (v ≠ 0)

/-- C integral promotion of a `bool`: `true` is 1, `false` is 0. -/
def boolToInt (b : Bool) : Int := if b then 1 else 0

/-- Characteristic write: `setValue` with any token. -/
def Effect.isSetValue : Effect → Bool
  | .setValue _ => true
  | _ => false

/-- Indicator write: `digitalWrite` with any pin and level. -/
def Effect.isDigitalWrite : Effect → Bool
  | .digitalWrite _ _ => true
  | _ => false

/-- Wireless push or indicator write: what a peer or an onlooker can observe. -/
def Effect.isOutput : Effect → Bool
  | .setValue _ => true
  | .notify => true
  | .digitalWrite _ _ => true
  | _ => false

/-- Poll of the trigger source: a pin read or a decoder result-ready check. -/
def Effect.isPoll : Effect → Bool
  | .digitalRead _ => true
  | .irDecode _ => true
  | _ => false

/-- Time blocked by one effect: the argument of `delay`, zero for anything else. -/
def Effect.blocked : Effect → Nat
  | .delay ms => ms
  | _ => 0

/-- Total time blocked by a trace. -/
def blockedTime (t : List Effect) : Nat := (t.map Effect.blocked).sum

/-- The statements shared by both sketches between the serial log and the end of the
firing branch: characteristic write, notify, indicator on, hold, indicator off. -/
def notifierTrace : List Effect :=
  [.setValue "button", .notify, .digitalWrite LED_PIN HIGH, .delay 200,
   .digitalWrite LED_PIN LOW]

/-- Wireless pushes and indicator writes of one firing: the outputs within `notifierTrace`. -/
def notifierOutputs : List Effect :=
  [.setValue "button", .notify, .digitalWrite LED_PIN HIGH, .digitalWrite LED_PIN LOW]

/-- An iteration trace notifies when it contains a `notify`. -/
def notifies (t : List Effect) : Bool := t.contains Effect.notify

/-! ## Button variant (`src/NewVR/arduino.c`) -/

namespace Button

/-- Constant of the sketch: `const int buttonOn = LOW;`. -/
def buttonOn : Int := LOW

/-- Constant of the sketch: `const int buttonOff = HIGH;`. -/
def buttonOff : Int := HIGH

/-- The two mutable globals of the sketch read by `loop()`. -/
structure State where
  deviceConnected : Bool
  buttonState : Int
  deriving DecidableEq, Repr

/-- Globals after their initialisers: `deviceConnected = false`, `buttonState = buttonOff`. -/
def boot : State := { deviceConnected := false, buttonState := buttonOff }

/-- Callback `BLECallbacks::onConnect`. -/
def onConnect (s : State) : State × List Effect :=
  ({ s with deviceConnected := true }, [.serialPrintln "✅ Device connected"])

/-- Callback `BLECallbacks::onDisconnect`. -/
def onDisconnect (s : State) : State × List Effect :=
  ({ s with deviceConnected := false }, [.serialPrintln "❌ Device disconnected"])

/-- One execution of `loop()`; `pin` is what `digitalRead(BUTTON_PIN)` returns if called. -/
def loop (s : State) (pin : Int) : State × List Effect :=
  if s.deviceConnected then
    let currentButtonState : Bool := intToBool pin
    if s.buttonState ≠ boolToInt currentButtonState then
      if boolToInt currentButtonState = buttonOn then
        ({ s with buttonState := boolToInt currentButtonState },
          [.digitalRead BUTTON_PIN, .serialPrintln "🔘 Button Pressed"] ++ notifierTrace
            ++ [.delay 10])
      else
        ({ s with buttonState := boolToInt currentButtonState },
          [.digitalRead BUTTON_PIN, .delay 10])
    else
      (s, [.digitalRead BUTTON_PIN, .delay 10])
  else
    (s, [.delay 10])

/-- What can happen to the device: a radio callback or one loop iteration with its pin level. -/
inductive Event where
  | connect
  | disconnect
  | iterate (pin : Int)
  deriving DecidableEq, Repr

/-- Connection callback events. -/
def Event.isCallback : Event → Bool
  | .iterate _ => false
  | _ => true

/-- Loop iteration events. -/
def Event.isIterate : Event → Bool
  | .iterate _ => true
  | _ => false

/-- One event applied to the globals. -/
def step (s : State) : Event → State × List Effect
  | .connect => onConnect s
  | .disconnect => onDisconnect s
  | .iterate pin => loop s pin

/-- Globals after a sequence of events. -/
def finalState (s : State) : List Event → State
  | [] => s
  | e :: es => finalState (step s e).1 es

/-- Traces of a sequence of events, one per event. -/
def traces (s : State) : List Event → List (List Effect)
  | [] => []
  | e :: es => (step s e).2 :: traces (step s e).1 es

/-- The sampled level is the asserted ("on") level. -/
def isOn (pin : Int) : Bool := decide (boolToInt (intToBool pin) = buttonOn)

/-- Trigger edge of one iteration: the sampled level is "on" and differs from the stored one. -/
def edgeDetected (s : State) (pin : Int) : Bool :=
  isOn pin && decide (s.buttonState ≠ boolToInt (intToBool pin))

/-- Spec-side variant of `loop()`, following the words of the spec (section 4.4): the pin is
read and the stored previous level is updated in every iteration, and only the firing of the
Notifier is gated on the connection state. -/
def loopPollAlways (s : State) (pin : Int) : State × List Effect :=
  let currentButtonState : Bool := intToBool pin
  if s.buttonState ≠ boolToInt currentButtonState then
    if boolToInt currentButtonState = buttonOn ∧ s.deviceConnected = true then
      ({ s with buttonState := boolToInt currentButtonState },
        [.digitalRead BUTTON_PIN, .serialPrintln "🔘 Button Pressed"] ++ notifierTrace
          ++ [.delay 10])
    else
      ({ s with buttonState := boolToInt currentButtonState },
        [.digitalRead BUTTON_PIN, .delay 10])
  else
    (s, [.digitalRead BUTTON_PIN, .delay 10])

/-- Wireless pushes and indicator writes of a run of a loop body over per-iteration inputs
(connection state at the iteration, pin level), in order. -/
def outputs (body : State → Int → State × List Effect) (s : State) :
    List (Bool × Int) → List Effect
  | [] => []
  | (c, pin) :: rest =>
    (body { s with deviceConnected := c } pin).2.filter Effect.isOutput
      ++ outputs body (body { s with deviceConnected := c } pin).1 rest

/-- Wireless pushes and indicator writes of a run of a loop body over per-iteration inputs,
one list per iteration. -/
def outputTraces (body : State → Int → State × List Effect) (s : State) :
    List (Bool × Int) → List (List Effect)
  | [] => []
  | (c, pin) :: rest =>
    (body { s with deviceConnected := c } pin).2.filter Effect.isOutput
      :: outputTraces body (body { s with deviceConnected := c } pin).1 rest

/-- At every Connected iteration whose sample is "on", the sample of the most recent earlier
Connected iteration (`lastConnOn` when there is none) and the sample of the immediately
preceding iteration (`prevOn` when there is none) are both "on" or both "off". -/
def reconnectsAgree (lastConnOn prevOn : Bool) : List (Bool × Int) → Bool
  | [] => true
  | (true, pin) :: rest =>
    (!isOn pin || (lastConnOn == prevOn)) && reconnectsAgree (isOn pin) (isOn pin) rest
  | (false, pin) :: rest => reconnectsAgree lastConnOn (isOn pin) rest

/-- No loop iteration of the event sequence runs while Connected, `conn` being the
connection state before the first event. -/
def idleGap (conn : Bool) : List Event → Bool
  | [] => true
  | .connect :: es => idleGap true es
  | .disconnect :: es => idleGap false es
  | .iterate _ :: es => !conn && idleGap conn es

/-- Globals once the peer has connected after boot. -/
def connectedBoot : State := (onConnect boot).1

/-- Off-to-on transitions of a sequence of pin samples, one flag per sample: the sample is
"on" and the preceding sample (`prevOn` for the first one) was "off". -/
def risingEdges (prevOn : Bool) : List Int → List Bool
  | [] => []
  | p :: ps => (isOn p && !prevOn) :: risingEdges (isOn p) ps

end Button

/-- Total time blocked over the traces of a run. -/
def totalBlocked (ts : List (List Effect)) : Nat := (ts.map blockedTime).sum

/-- Number of traces of a run that notify. -/
def firingCount (ts : List (List Effect)) : Nat := (ts.map notifies).count true

/-- No trace of a run holds a wireless push or an indicator write. -/
def silent (ts : List (List Effect)) : Bool := ts.all (fun t => !t.any Effect.isOutput)

/-- All effects of a run in order. -/
def flatTrace : List (List Effect) → List Effect
  | [] => []
  | t :: ts => t ++ flatTrace ts

/-- Number of `notify` calls over the traces of a run. -/
def notifyCount (ts : List (List Effect)) : Nat :=
  (ts.map (fun t => t.count Effect.notify)).sum

/-! ## Infrared variant (`src/NewVR/sekigaisen.c`) -/

namespace Infrared

/-- The field of the decoder library's `decode_results` that the sketch reads. -/
structure decode_results where
  value : Nat
  deriving DecidableEq, Repr

/-- Interface of the decoder library object `irrecv` over an arbitrary decoder state `D`:
`decode(&results)` answers whether a result is ready and may rewrite the decoder state and
`results`; `resume()` rewrites the decoder state. The library is not under `src/`, so the
sketch is embedded for every implementation of this interface. -/
structure IRrecv (D : Type) where
  decode : D → decode_results → Bool × D × decode_results
  resume : D → D

/-- The mutable globals of the sketch read by `loop()`. -/
structure State (D : Type) where
  deviceConnected : Bool
  irrecv : D
  results : decode_results

/-- Globals after their initialisers, for a decoder object initially in state `d`. -/
def boot {D : Type} (d : D) : State D :=
  { deviceConnected := false, irrecv := d, results := { value := 0 } }

/-- Callback `BLECallbacks::onConnect`. -/
def onConnect {D : Type} (s : State D) : State D × List Effect :=
  ({ s with deviceConnected := true }, [.serialPrintln "✅ Device connected"])

/-- Callback `BLECallbacks::onDisconnect`. -/
def onDisconnect {D : Type} (s : State D) : State D × List Effect :=
  ({ s with deviceConnected := false }, [.serialPrintln "❌ Device disconnected"])

/-- One execution of `loop()`. The condition `deviceConnected && irrecv.decode(&results)`
short-circuits: the decoder is consulted only while connected. -/
def loop {D : Type} (lib : IRrecv D) (s : State D) : State D × List Effect :=
  if s.deviceConnected then
    let r := lib.decode s.irrecv s.results
    if r.1 then
      ({ s with irrecv := lib.resume r.2.1, results := r.2.2 },
        [.irDecode true, .serialPrint "📥 IR Received: ",
          .serialPrintln (toString r.2.2.value)] ++ notifierTrace ++ [.irResume, .delay 10])
    else
      ({ s with irrecv := r.2.1, results := r.2.2 }, [.irDecode false, .delay 10])
  else
    (s, [.delay 10])

/-- What can happen to the device: a radio callback, one loop iteration, or the outside
world acting on the decoder (a signal arriving), given as a function on the decoder state. -/
inductive Event (D : Type) where
  | connect
  | disconnect
  | iterate
  | world (act : D → D)

/-- Connection callback events. -/
def Event.isCallback {D : Type} : Event D → Bool
  | .connect => true
  | .disconnect => true
  | _ => false

/-- The connect callback event. -/
def Event.isConnect {D : Type} : Event D → Bool
  | .connect => true
  | _ => false

/-- Loop iteration events. -/
def Event.isIterate {D : Type} : Event D → Bool
  | .iterate => true
  | _ => false

/-- One event applied to the globals. -/
def step {D : Type} (lib : IRrecv D) (s : State D) : Event D → State D × List Effect
  | .connect => onConnect s
  | .disconnect => onDisconnect s
  | .iterate => loop lib s
  | .world act => ({ s with irrecv := act s.irrecv }, [])

/-- Globals after a sequence of events. -/
def finalState {D : Type} (lib : IRrecv D) (s : State D) : List (Event D) → State D
  | [] => s
  | e :: es => finalState lib (step lib s e).1 es

/-- Traces of a sequence of events, one per event. -/
def traces {D : Type} (lib : IRrecv D) (s : State D) : List (Event D) → List (List Effect)
  | [] => []
  | e :: es => (step lib s e).2 :: traces lib (step lib s e).1 es

/-- Trigger of one iteration: the decoder would report a result ready. -/
def resultReady {D : Type} (lib : IRrecv D) (s : State D) : Bool :=
  (lib.decode s.irrecv s.results).1

/-- Modelled from the spec: the decoder library is not under `src/`. At its interface the
decoder holds a decoded result ready from the moment a signal is decoded until `resume()`
is called: `decode` reports and copies out the held result without releasing it, `resume`
releases it. The decoder state is the held code, if any. -/
def latch : IRrecv (Option Nat) where
  decode := fun d r =>
    match d with
    | some code => (true, some code, { value := code })
    | none => (false, none, r)
  resume := fun _ => none

/-- Modelled from the spec: a signal with the given code is decoded by the latch decoder.
It becomes the held result unless one is already held (reception is stopped until resume). -/
def signal (code : Nat) : Option Nat → Option Nat
  | none => some code
  | some held => some held

/-- Events of the sketch running against the latch decoder. -/
inductive LatchEvent where
  | connect
  | disconnect
  | iterate
  | signal (code : Nat)
  deriving DecidableEq, Repr

/-- A latch event as an event of the sketch: a signal acts on the decoder state. -/
def LatchEvent.toEvent : LatchEvent → Event (Option Nat)
  | .connect => Event.connect
  | .disconnect => Event.disconnect
  | .iterate => Event.iterate
  | .signal code => Event.world (Infrared.signal code)

/-- Decode/resume discipline over a trace: scanning left to right with a flag "a ready
result awaits resume", every ready `decode` must find the flag clear and sets it, every
not-ready `decode` must find it clear, every `resume` must find it set and clears it. The
answer is `none` on a violation, otherwise the final flag. -/
def resumeScan : Bool → List Effect → Option Bool
  | awaiting, [] => some awaiting
  | awaiting, .irDecode ready :: t => if awaiting then none else resumeScan ready t
  | awaiting, .irResume :: t => if awaiting then resumeScan false t else none
  | awaiting, _ :: t => resumeScan awaiting t

end Infrared

end NewVR

open NewVR

/-! ## Helper lemmas -/

theorem boolToInt_intToBool_eq_zero (pin : Int) :
    boolToInt (intToBool pin) = 0 ↔ pin = 0 := by
  unfold boolToInt intToBool
  by_cases h : pin = 0 <;> simp [h]

theorem button_isOn_iff (pin : Int) : Button.isOn pin = true ↔ pin = 0 := by
  unfold Button.isOn Button.buttonOn LOW
  simp [boolToInt_intToBool_eq_zero]

theorem button_loop_cases (s : Button.State) (pin : Int) :
    (s.deviceConnected = true ∧ Button.edgeDetected s pin = true ∧
      (Button.loop s pin).1 = { s with buttonState := boolToInt (intToBool pin) } ∧
      (Button.loop s pin).2 =
        [.digitalRead BUTTON_PIN, .serialPrintln "🔘 Button Pressed"] ++ notifierTrace
          ++ [.delay 10]) ∨
    (s.deviceConnected = true ∧ Button.edgeDetected s pin = false ∧
      (Button.loop s pin).1 = { s with buttonState := boolToInt (intToBool pin) } ∧
      (Button.loop s pin).2 = [.digitalRead BUTTON_PIN, .delay 10]) ∨
    (s.deviceConnected = false ∧ (Button.loop s pin).1 = s ∧
      (Button.loop s pin).2 = [.delay 10]) := by
  cases hc : s.deviceConnected
  · right; right
    simp [Button.loop, hc]
  · by_cases hne : s.buttonState ≠ boolToInt (intToBool pin)
    · by_cases hon : boolToInt (intToBool pin) = Button.buttonOn
      · left
        have hne2 : ¬ s.buttonState = Button.buttonOn := fun h => hne (h.trans hon.symm)
        simp [Button.loop, Button.edgeDetected, Button.isOn, hc, hne, hon, hne2]
      · right; left
        simp [Button.loop, Button.edgeDetected, Button.isOn, hc, hne, hon]
    · right; left
      have heq : s.buttonState = boolToInt (intToBool pin) := not_not.mp hne
      refine ⟨rfl, ?_, ?_, ?_⟩
      · simp [Button.edgeDetected, heq]
      · simp only [Button.loop, hc, if_true, hne, if_false]
        rw [← heq]
        cases s
        simp_all
      · simp only [Button.loop, hc, if_true, hne, if_false]

theorem infrared_loop_cases {D : Type} (lib : Infrared.IRrecv D) (s : Infrared.State D) :
    (s.deviceConnected = true ∧ Infrared.resultReady lib s = true ∧
      (Infrared.loop lib s).1 =
        { s with irrecv := lib.resume (lib.decode s.irrecv s.results).2.1,
                 results := (lib.decode s.irrecv s.results).2.2 } ∧
      (Infrared.loop lib s).2 =
        [.irDecode true, .serialPrint "📥 IR Received: ",
          .serialPrintln (toString (lib.decode s.irrecv s.results).2.2.value)]
          ++ notifierTrace ++ [.irResume, .delay 10]) ∨
    (s.deviceConnected = true ∧ Infrared.resultReady lib s = false ∧
      (Infrared.loop lib s).1 =
        { s with irrecv := (lib.decode s.irrecv s.results).2.1,
                 results := (lib.decode s.irrecv s.results).2.2 } ∧
      (Infrared.loop lib s).2 = [.irDecode false, .delay 10]) ∨
    (s.deviceConnected = false ∧ (Infrared.loop lib s).1 = s ∧
      (Infrared.loop lib s).2 = [.delay 10]) := by
  cases hc : s.deviceConnected
  · right; right
    simp [Infrared.loop, hc]
  · cases hr : (lib.decode s.irrecv s.results).1
    · right; left
      simp [Infrared.loop, Infrared.resultReady, hc, hr]
    · left
      simp [Infrared.loop, Infrared.resultReady, hc, hr]

/-! ## Firing iteration (C1) -/

/-- C1: in both variants a loop iteration that starts Connected and detects a trigger
(button: the sampled level is "on" and differs from the stored level; infrared: the decoder
reports a result ready, whatever the decoder and the decoded value) performs, after the
poll and the serial log, exactly the effects `setValue "button"`, `notify`, indicator `HIGH`,
`delay 200`, indicator `LOW`, in this order and each exactly once in the whole iteration. -/
theorem connected_trigger_emits_notifier_sequence
    (sb : Button.State) (pin : Int) {D : Type} (lib : Infrared.IRrecv D)
    (si : Infrared.State D) :
    notifierTrace =
      [.setValue "button", .notify, .digitalWrite LED_PIN HIGH, .delay 200,
        .digitalWrite LED_PIN LOW] ∧
    (sb.deviceConnected = true → Button.edgeDetected sb pin = true →
      (Button.loop sb pin).2 =
        [.digitalRead BUTTON_PIN, .serialPrintln "🔘 Button Pressed"] ++ notifierTrace
          ++ [.delay 10] ∧
      (∀ e ∈ notifierTrace, (Button.loop sb pin).2.count e = 1) ∧
      (Button.loop sb pin).2.filter Effect.isOutput =
        [.setValue "button", .notify, .digitalWrite LED_PIN HIGH, .digitalWrite LED_PIN LOW]) ∧
    (si.deviceConnected = true → Infrared.resultReady lib si = true →
      (Infrared.loop lib si).2 =
        [.irDecode true, .serialPrint "📥 IR Received: ",
          .serialPrintln (toString (lib.decode si.irrecv si.results).2.2.value)]
          ++ notifierTrace ++ [.irResume, .delay 10] ∧
      (∀ e ∈ notifierTrace, (Infrared.loop lib si).2.count e = 1) ∧
      (Infrared.loop lib si).2.filter Effect.isOutput =
        [.setValue "button", .notify, .digitalWrite LED_PIN HIGH,
          .digitalWrite LED_PIN LOW]) := by
  refine ⟨rfl, ?_, ?_⟩
  · intro hc he
    rcases button_loop_cases sb pin with ⟨_, _, _, h⟩ | ⟨_, h, _⟩ | ⟨h, _⟩
    · rw [h]
      refine ⟨rfl, ?_, rfl⟩
      intro e hmem
      simp only [notifierTrace, List.mem_cons, List.mem_singleton, List.not_mem_nil,
        or_false] at hmem
      rcases hmem with rfl | rfl | rfl | rfl | rfl <;>
        simp [notifierTrace, List.count_cons, LED_PIN, HIGH, LOW]
    · rw [he] at h; cases h
    · rw [hc] at h; cases h
  · intro hc he
    rcases infrared_loop_cases lib si with ⟨_, _, _, h⟩ | ⟨_, h, _⟩ | ⟨h, _⟩
    · rw [h]
      refine ⟨rfl, ?_, rfl⟩
      intro e hmem
      simp only [notifierTrace, List.mem_cons, List.mem_singleton, List.not_mem_nil,
        or_false] at hmem
      rcases hmem with rfl | rfl | rfl | rfl | rfl <;>
        simp [notifierTrace, List.count_cons, LED_PIN, HIGH, LOW]
    · rw [he] at h; cases h
    · rw [hc] at h; cases h

/-- C1 at concrete inputs: the button sketch Connected with stored level `HIGH` sampling
`LOW`, and the infrared sketch Connected with the latch decoder holding code 7. -/
theorem connected_trigger_emits_notifier_sequence_witness :
    (Button.loop { deviceConnected := true, buttonState := HIGH } LOW).2 =
        [.digitalRead BUTTON_PIN, .serialPrintln "🔘 Button Pressed"] ++ notifierTrace
          ++ [.delay 10] ∧
    (Infrared.loop Infrared.latch
        { deviceConnected := true, irrecv := some 7, results := { value := 0 } }).2.filter
        Effect.isOutput =
      [.setValue "button", .notify, .digitalWrite LED_PIN HIGH, .digitalWrite LED_PIN LOW] :=
  ⟨((connected_trigger_emits_notifier_sequence
      { deviceConnected := true, buttonState := HIGH } LOW Infrared.latch
      { deviceConnected := true, irrecv := some 7, results := { value := 0 } }).2.1
      rfl (by decide)).1,
   ((connected_trigger_emits_notifier_sequence
      { deviceConnected := true, buttonState := HIGH } LOW Infrared.latch
      { deviceConnected := true, irrecv := some 7, results := { value := 0 } }).2.2
      rfl rfl).2.2⟩

/-! ## Notification invariant (C2) -/

/-- C2: for every state and input of one loop iteration, in both variants, the iteration
notifies if and only if it starts Connected and a trigger is detected in it; in every other
iteration the trace holds no characteristic write, no notify and no indicator write. -/
theorem notification_iff_connected_and_trigger
    (sb : Button.State) (pin : Int) {D : Type} (lib : Infrared.IRrecv D)
    (si : Infrared.State D) :
    ((notifies (Button.loop sb pin).2 = true ↔
        sb.deviceConnected = true ∧ Button.edgeDetected sb pin = true) ∧
      (¬ (sb.deviceConnected = true ∧ Button.edgeDetected sb pin = true) →
        (Button.loop sb pin).2.any Effect.isOutput = false)) ∧
    ((notifies (Infrared.loop lib si).2 = true ↔
        si.deviceConnected = true ∧ Infrared.resultReady lib si = true) ∧
      (¬ (si.deviceConnected = true ∧ Infrared.resultReady lib si = true) →
        (Infrared.loop lib si).2.any Effect.isOutput = false)) := by
  constructor
  · rcases button_loop_cases sb pin with ⟨hc, he, _, h⟩ | ⟨hc, he, _, h⟩ | ⟨hc, _, h⟩
    · rw [h]
      exact ⟨⟨fun _ => ⟨hc, he⟩, fun _ => by decide⟩, fun hn => absurd ⟨hc, he⟩ hn⟩
    · rw [h]
      refine ⟨⟨fun hcon => absurd hcon (by decide), fun hp => ?_⟩, fun _ => by decide⟩
      rw [he] at hp
      exact absurd hp.2 (by decide)
    · rw [h]
      refine ⟨⟨fun hcon => absurd hcon (by decide), fun hp => ?_⟩, fun _ => by decide⟩
      rw [hc] at hp
      exact absurd hp.1 (by decide)
  · rcases infrared_loop_cases lib si with ⟨hc, he, _, h⟩ | ⟨hc, he, _, h⟩ | ⟨hc, _, h⟩
    · rw [h]
      refine ⟨⟨fun _ => ⟨hc, he⟩, fun _ => ?_⟩, fun hn => absurd ⟨hc, he⟩ hn⟩
      simp [notifies, notifierTrace]
    · rw [h]
      refine ⟨⟨fun hcon => absurd hcon (by decide), fun hp => ?_⟩, fun _ => by decide⟩
      rw [he] at hp
      exact absurd hp.2 (by decide)
    · rw [h]
      refine ⟨⟨fun hcon => absurd hcon (by decide), fun hp => ?_⟩, fun _ => by decide⟩
      rw [hc] at hp
      exact absurd hp.1 (by decide)

/-- C2 at concrete inputs: a pressed button and a held infrared result while Disconnected
produce no output at all. -/
theorem notification_iff_connected_and_trigger_witness :
    (Button.loop { deviceConnected := false, buttonState := HIGH } LOW).2.any
        Effect.isOutput = false ∧
    (Infrared.loop Infrared.latch
        { deviceConnected := false, irrecv := some 7, results := { value := 0 } }).2.any
        Effect.isOutput = false :=
  ⟨(notification_iff_connected_and_trigger
      { deviceConnected := false, buttonState := HIGH } LOW Infrared.latch
      { deviceConnected := false, irrecv := some 7, results := { value := 0 } }).1.2
      (by decide),
   (notification_iff_connected_and_trigger
      { deviceConnected := false, buttonState := HIGH } LOW Infrared.latch
      { deviceConnected := false, irrecv := some 7, results := { value := 0 } }).2.2
      (by simp)⟩

/-! ## Connection state (C7) -/

theorem button_loop_keeps_connection (s : Button.State) (pin : Int) :
    (Button.loop s pin).1.deviceConnected = s.deviceConnected := by
  rcases button_loop_cases s pin with ⟨_, _, h, _⟩ | ⟨_, _, h, _⟩ | ⟨_, h, _⟩ <;> rw [h]

theorem infrared_loop_keeps_connection {D : Type} (lib : Infrared.IRrecv D)
    (s : Infrared.State D) :
    (Infrared.loop lib s).1.deviceConnected = s.deviceConnected := by
  rcases infrared_loop_cases lib s with ⟨_, _, h, _⟩ | ⟨_, _, h, _⟩ | ⟨_, h, _⟩ <;> rw [h]

theorem getLast?_cons_eq_some_iff {α : Type} (a b : α) (l : List α) :
    (a :: l).getLast? = some b ↔ l.getLast? = some b ∨ (l = [] ∧ a = b) := by
  cases l with
  | nil => simp
  | cons c l => simp [List.getLast?_cons_cons]

theorem button_connection_after (s : Button.State) (es : List Button.Event) :
    (Button.finalState s es).deviceConnected = true ↔
      (es.filter Button.Event.isCallback).getLast? = some Button.Event.connect ∨
      (es.filter Button.Event.isCallback = [] ∧ s.deviceConnected = true) := by
  induction es generalizing s with
  | nil => simp [Button.finalState]
  | cons e es ih =>
    rw [Button.finalState, ih]
    cases e with
    | connect =>
      simp [Button.step, Button.onConnect, Button.Event.isCallback,
        getLast?_cons_eq_some_iff]
    | disconnect =>
      simp [Button.step, Button.onDisconnect, Button.Event.isCallback,
        getLast?_cons_eq_some_iff]
    | iterate pin =>
      simp [Button.step, Button.Event.isCallback, button_loop_keeps_connection]

theorem infrared_connection_after {D : Type} (lib : Infrared.IRrecv D)
    (s : Infrared.State D) (es : List (Infrared.Event D)) :
    (Infrared.finalState lib s es).deviceConnected = true ↔
      (es.filter Infrared.Event.isCallback).getLast? = some Infrared.Event.connect ∨
      (es.filter Infrared.Event.isCallback = [] ∧ s.deviceConnected = true) := by
  induction es generalizing s with
  | nil => simp [Infrared.finalState]
  | cons e es ih =>
    rw [Infrared.finalState, ih]
    cases e with
    | connect =>
      simp [Infrared.step, Infrared.onConnect, Infrared.Event.isCallback,
        getLast?_cons_eq_some_iff]
    | disconnect =>
      simp [Infrared.step, Infrared.onDisconnect, Infrared.Event.isCallback,
        getLast?_cons_eq_some_iff]
    | iterate =>
      simp [Infrared.step, Infrared.Event.isCallback, infrared_loop_keeps_connection]
    | world act =>
      simp [Infrared.step, Infrared.Event.isCallback]

/-- C7: in both variants ConnectionState is Disconnected at boot; after any finite sequence
of events applied to the boot state (callbacks, interleaved with any loop iterations) it is
Connected if and only if a callback occurred and the last one is onConnect; each callback is
idempotent; onConnect, onDisconnect, onConnect leaves it Connected; and `loop()` never
changes it. -/
theorem connection_state_last_callback_wins
    (esb : List Button.Event) (sb : Button.State) (pin : Int)
    {D : Type} (lib : Infrared.IRrecv D) (d : D) (esi : List (Infrared.Event D))
    (si : Infrared.State D) :
    (Button.boot.deviceConnected = false ∧
      ((Button.finalState Button.boot esb).deviceConnected = true ↔
        (esb.filter Button.Event.isCallback).getLast? = some Button.Event.connect) ∧
      (Button.onConnect (Button.onConnect sb).1).1 = (Button.onConnect sb).1 ∧
      (Button.onDisconnect (Button.onDisconnect sb).1).1 = (Button.onDisconnect sb).1 ∧
      (Button.finalState Button.boot [.connect, .disconnect, .connect]).deviceConnected
        = true ∧
      (Button.loop sb pin).1.deviceConnected = sb.deviceConnected) ∧
    ((Infrared.boot d).deviceConnected = false ∧
      ((Infrared.finalState lib (Infrared.boot d) esi).deviceConnected = true ↔
        (esi.filter Infrared.Event.isCallback).getLast? = some Infrared.Event.connect) ∧
      (Infrared.onConnect (Infrared.onConnect si).1).1 = (Infrared.onConnect si).1 ∧
      (Infrared.onDisconnect (Infrared.onDisconnect si).1).1 = (Infrared.onDisconnect si).1 ∧
      (Infrared.finalState lib (Infrared.boot d)
        [.connect, .disconnect, .connect]).deviceConnected = true ∧
      (Infrared.loop lib si).1.deviceConnected = si.deviceConnected) := by
  refine ⟨⟨rfl, ?_, rfl, rfl, rfl, button_loop_keeps_connection sb pin⟩,
    ⟨rfl, ?_, rfl, rfl, rfl, infrared_loop_keeps_connection lib si⟩⟩
  · rw [button_connection_after]
    simp [Button.boot]
  · rw [infrared_connection_after]
    simp [Infrared.boot]

/-! ## Edge detection over sample sequences (C3) -/

theorem button_notifies_eq (s : Button.State) (pin : Int) :
    notifies (Button.loop s pin).2 = (s.deviceConnected && Button.edgeDetected s pin) ∧
    (Button.loop s pin).2.count Effect.notify =
      if notifies (Button.loop s pin).2 then 1 else 0 := by
  rcases button_loop_cases s pin with ⟨hc, he, _, h⟩ | ⟨hc, he, _, h⟩ | ⟨hc, _, h⟩
  · rw [h, hc, he]; simp [notifies, notifierTrace]
  · rw [h, hc, he]; simp [notifies]
  · rw [h, hc]; simp [notifies]

theorem button_edge_eq (s : Button.State) (pin : Int) :
    Button.edgeDetected s pin =
      (Button.isOn pin && !decide (s.buttonState = Button.buttonOn)) := by
  unfold Button.edgeDetected
  cases hon : Button.isOn pin
  · simp
  · have h0 : boolToInt (intToBool pin) = Button.buttonOn := by
      simpa [Button.isOn] using hon
    simp [h0]

theorem button_stored_after_connected (s : Button.State) (pin : Int)
    (hc : s.deviceConnected = true) :
    (Button.loop s pin).1 = { s with buttonState := boolToInt (intToBool pin) } := by
  rcases button_loop_cases s pin with ⟨_, _, h, _⟩ | ⟨_, _, h, _⟩ | ⟨hd, _, _⟩
  · exact h
  · exact h
  · rw [hc] at hd; cases hd

theorem button_connected_run (samples : List Int) (s : Button.State)
    (hc : s.deviceConnected = true) :
    (Button.traces s (samples.map Button.Event.iterate)).map notifies =
      Button.risingEdges (decide (s.buttonState = Button.buttonOn)) samples := by
  induction samples generalizing s with
  | nil => rfl
  | cons p ps ih =>
    simp only [List.map_cons, Button.traces, Button.step, Button.risingEdges]
    rw [(button_notifies_eq s p).1, hc, button_edge_eq, button_stored_after_connected s p hc,
      ih { s with buttonState := boolToInt (intToBool p) } hc]
    simp [Button.isOn]

theorem notifyCount_eq_of_flags (ts : List (List Effect))
    (h : ∀ t ∈ ts, t.count Effect.notify = if notifies t then 1 else 0) :
    notifyCount ts = (ts.map notifies).count true := by
  induction ts with
  | nil => rfl
  | cons t ts ih =>
    have ht := h t (List.mem_cons_self _ _)
    have ih2 := ih (fun u hu => h u (List.mem_cons_of_mem _ hu))
    simp only [notifyCount, List.map_cons, List.sum_cons] at ih2 ⊢
    rw [ht, ih2, List.count_cons]
    cases notifies t <;> simp [Nat.add_comm]

theorem button_traces_count (s : Button.State) (es : List Button.Event) :
    ∀ t ∈ Button.traces s es, t.count Effect.notify = if notifies t then 1 else 0 := by
  induction es generalizing s with
  | nil => intro t ht; cases ht
  | cons e es ih =>
    intro t ht
    simp only [Button.traces, List.mem_cons] at ht
    rcases ht with rfl | ht
    · cases e with
      | connect => simp [Button.step, Button.onConnect, notifies]
      | disconnect => simp [Button.step, Button.onDisconnect, notifies]
      | iterate pin => exact (button_notifies_eq s pin).2
    · exact ih _ t ht

/-- C3: button variant, peer connected throughout, stored level initially "off": for every
finite sequence of pin samples fed to successive loop iterations, the notifying iterations
are exactly those whose sample is "on" while the preceding sample (initially "off") was
"off", and the number of notifications equals the number of such off-to-on transitions. On
the samples high, low, low five times, high, low exactly the second and the last iteration
notify: two notifications. -/
theorem button_notifies_once_per_rising_edge (samples : List Int) :
    (Button.traces Button.connectedBoot (samples.map Button.Event.iterate)).map notifies =
      Button.risingEdges false samples ∧
    notifyCount (Button.traces Button.connectedBoot (samples.map Button.Event.iterate)) =
      (Button.risingEdges false samples).count true ∧
    (Button.traces Button.connectedBoot
        ([HIGH, LOW, LOW, LOW, LOW, LOW, LOW, HIGH, LOW].map Button.Event.iterate)).map
        notifies = [false, true, false, false, false, false, false, false, true] ∧
    notifyCount (Button.traces Button.connectedBoot
        ([HIGH, LOW, LOW, LOW, LOW, LOW, LOW, HIGH, LOW].map Button.Event.iterate)) = 2 := by
  have hrun := button_connected_run samples Button.connectedBoot rfl
  have hflag : decide (Button.connectedBoot.buttonState = Button.buttonOn) = false := by
    decide
  rw [hflag] at hrun
  refine ⟨hrun, ?_, by decide, by decide⟩
  rw [notifyCount_eq_of_flags _ (button_traces_count _ _), hrun]

/-! ## Triggers while Disconnected, button variant (C4) -/

theorem button_loop_outputs (s : Button.State) (pin : Int) :
    (Button.loop s pin).2.filter Effect.isOutput =
      (if (s.deviceConnected && Button.edgeDetected s pin) = true then notifierOutputs
        else []) ∧
    (Button.loop s pin).1.buttonState =
      (if s.deviceConnected = true then boolToInt (intToBool pin) else s.buttonState) := by
  rcases button_loop_cases s pin with ⟨hc, he, h1, h2⟩ | ⟨hc, he, h1, h2⟩ | ⟨hc, h1, h2⟩
  · rw [h1, h2, hc, he]; exact ⟨rfl, rfl⟩
  · rw [h1, h2, hc, he]; exact ⟨rfl, rfl⟩
  · rw [h1, h2, hc]; exact ⟨rfl, by simp⟩

theorem button_idle_gap_run (es : List Button.Event) (s : Button.State)
    (hgap : Button.idleGap s.deviceConnected es = true) :
    silent (Button.traces s es) = true ∧
    (Button.finalState s es).buttonState = s.buttonState := by
  induction es generalizing s with
  | nil => exact ⟨rfl, rfl⟩
  | cons e es ih =>
    cases e with
    | connect =>
      have h := ih (Button.onConnect s).1 hgap
      refine ⟨?_, h.2⟩
      simpa [silent, Button.traces, Button.step, Button.onConnect, Effect.isOutput]
        using h.1
    | disconnect =>
      have h := ih (Button.onDisconnect s).1 hgap
      refine ⟨?_, h.2⟩
      simpa [silent, Button.traces, Button.step, Button.onDisconnect, Effect.isOutput]
        using h.1
    | iterate pin =>
      simp only [Button.idleGap, Bool.and_eq_true, Bool.not_eq_true'] at hgap
      rcases button_loop_cases s pin with ⟨hc, _⟩ | ⟨hc, _⟩ | ⟨_, h1, h2⟩
      · rw [hgap.1] at hc; cases hc
      · rw [hgap.1] at hc; cases hc
      · have h := ih s hgap.2
        simp only [Button.traces, Button.finalState, Button.step, h1, h2]
        refine ⟨?_, h.2⟩
        simpa [silent, Effect.isOutput] using h.1

/-- C4 as stated fails: from boot the pin goes from its pulled-up level to `LOW` in a
Disconnected iteration (the only off-to-on transition of the run), the peer connects while
the button is held, and the next iteration pushes and pulses: the trigger is deferred. -/
theorem button_disconnected_press_fires_after_connect :
    Button.boot.deviceConnected = false ∧
    Button.risingEdges false [LOW, LOW] = [true, false] ∧
    (Button.traces Button.boot [.iterate LOW, .connect, .iterate LOW]).map notifies =
      [false, false, true] ∧
    (Button.traces Button.boot [.iterate LOW, .connect, .iterate LOW]).map
        (fun t => t.filter Effect.isOutput) =
      [[], [], [.setValue "button", .notify, .digitalWrite LED_PIN HIGH,
        .digitalWrite LED_PIN LOW]] := by
  decide

/-- C4 amended: over any stretch of callbacks and loop iterations in which no iteration runs
Connected, whatever the pin does, no push and no indicator write occurs and the stored
previous level does not change. The first Connected iteration after the stretch notifies if
and only if its own sample is "on" and the stored previous level is not "on", and then emits
the push and the indicator pulse once; in every other case it emits no push and no indicator
write. After that iteration the globals depend on its sample alone, and while
the peer stays Connected the notifying iterations are exactly the off-to-on transitions
between consecutive samples from that sample on. -/
theorem button_disconnected_trigger_suppressed_unless_held
    (s : Button.State) (es : List Button.Event) (pin : Int) (samples : List Int)
    (hgap : Button.idleGap s.deviceConnected es = true)
    (hconn : (Button.finalState s es).deviceConnected = true) :
    silent (Button.traces s es) = true ∧
    (Button.finalState s es).buttonState = s.buttonState ∧
    (notifies (Button.loop (Button.finalState s es) pin).2 = true ↔
      Button.isOn pin = true ∧ s.buttonState ≠ Button.buttonOn) ∧
    (Button.loop (Button.finalState s es) pin).2.filter Effect.isOutput =
      (if Button.isOn pin = true ∧ s.buttonState ≠ Button.buttonOn then notifierOutputs
        else []) ∧
    (Button.loop (Button.finalState s es) pin).1 =
      { deviceConnected := true, buttonState := boolToInt (intToBool pin) } ∧
    (Button.traces (Button.loop (Button.finalState s es) pin).1
        (samples.map Button.Event.iterate)).map notifies =
      Button.risingEdges (Button.isOn pin) samples := by
  obtain ⟨hsil, hst⟩ := button_idle_gap_run es s hgap
  have hafter : (Button.loop (Button.finalState s es) pin).1 =
      { deviceConnected := true, buttonState := boolToInt (intToBool pin) } := by
    rw [button_stored_after_connected _ pin hconn, hconn]
  refine ⟨hsil, hst, ?_, ?_, hafter, ?_⟩
  · rw [(button_notifies_eq _ pin).1, hconn, button_edge_eq, hst]
    simp
  · rw [(button_loop_outputs _ pin).1, hconn, button_edge_eq, hst]
    simp
  · rw [hafter]
    exact button_connected_run samples _ rfl

/-- C4 amended, at two concrete runs. From boot the button is pressed in a Disconnected
iteration and held: the stretch is silent and the first Connected iteration notifies. With
the stored level already "on", a release and a new press while Disconnected are suppressed:
the first Connected iteration does not notify. -/
theorem button_disconnected_trigger_suppressed_unless_held_witness :
    silent (Button.traces Button.boot [.iterate LOW, .iterate LOW, .connect]) = true ∧
    (notifies (Button.loop (Button.finalState Button.boot
        [.iterate LOW, .iterate LOW, .connect]) LOW).2 = true ↔
      Button.isOn LOW = true ∧ Button.boot.buttonState ≠ Button.buttonOn) ∧
    (notifies (Button.loop (Button.finalState
        { deviceConnected := true, buttonState := LOW }
        [.disconnect, .iterate HIGH, .iterate LOW, .connect]) LOW).2 = true ↔
      Button.isOn LOW = true ∧ LOW ≠ Button.buttonOn) ∧
    (Button.loop (Button.finalState { deviceConnected := true, buttonState := LOW }
        [.disconnect, .iterate HIGH, .iterate LOW, .connect]) LOW).2.filter
        Effect.isOutput =
      (if Button.isOn LOW = true ∧ LOW ≠ Button.buttonOn then notifierOutputs else []) :=
  ⟨(button_disconnected_trigger_suppressed_unless_held Button.boot
      [.iterate LOW, .iterate LOW, .connect] LOW [] (by decide) (by decide)).1,
   (button_disconnected_trigger_suppressed_unless_held Button.boot
      [.iterate LOW, .iterate LOW, .connect] LOW [] (by decide) (by decide)).2.2.1,
   (button_disconnected_trigger_suppressed_unless_held
      { deviceConnected := true, buttonState := LOW }
      [.disconnect, .iterate HIGH, .iterate LOW, .connect] LOW [] (by decide)
      (by decide)).2.2.1,
   (button_disconnected_trigger_suppressed_unless_held
      { deviceConnected := true, buttonState := LOW }
      [.disconnect, .iterate HIGH, .iterate LOW, .connect] LOW [] (by decide)
      (by decide)).2.2.2.1⟩

/-! ## Triggers while Disconnected, infrared variant (C5) -/

theorem latch_disconnected_run (es : List Infrared.LatchEvent)
    (s : Infrared.State (Option Nat)) (code : Nat)
    (hc : s.deviceConnected = false) (hheld : s.irrecv = some code)
    (hes : ∀ e ∈ es, e ≠ Infrared.LatchEvent.connect) :
    silent (Infrared.traces Infrared.latch s (es.map Infrared.LatchEvent.toEvent)) = true ∧
    Infrared.finalState Infrared.latch s (es.map Infrared.LatchEvent.toEvent) = s := by
  induction es generalizing s with
  | nil => exact ⟨rfl, rfl⟩
  | cons e es ih =>
    have hrest : ∀ x ∈ es, x ≠ Infrared.LatchEvent.connect :=
      fun x hx => hes x (List.mem_cons_of_mem _ hx)
    have hstep : (Infrared.step Infrared.latch s e.toEvent).1 = s ∧
        (Infrared.step Infrared.latch s e.toEvent).2.any Effect.isOutput = false := by
      cases e with
      | connect => exact absurd rfl (hes _ (List.mem_cons_self _ _))
      | disconnect =>
        refine ⟨?_, rfl⟩
        cases s
        simp_all [Infrared.step, Infrared.onDisconnect, Infrared.LatchEvent.toEvent]
      | iterate =>
        rcases infrared_loop_cases Infrared.latch s with ⟨h, _⟩ | ⟨h, _⟩ | ⟨_, h1, h2⟩
        · rw [hc] at h; cases h
        · rw [hc] at h; cases h
        · refine ⟨h1, ?_⟩
          show (Infrared.loop Infrared.latch s).2.any Effect.isOutput = false
          rw [h2]; rfl
      | signal c =>
        refine ⟨?_, rfl⟩
        cases s
        simp_all [Infrared.step, Infrared.LatchEvent.toEvent, Infrared.signal]
    simp only [List.map_cons, Infrared.traces, Infrared.finalState, silent, List.all_cons,
      hstep.1, hstep.2]
    have := ih s hc hheld hrest
    simpa [silent] using this

/-- C5 as stated fails: with the latch decoder, a signal decoded while Disconnected stays
ready through a Disconnected iteration, and the first iteration after a later onConnect
pushes and pulses for it: the trigger is queued (one deep), not dropped. -/
theorem infrared_disconnected_signal_fires_after_connect :
    (Infrared.boot (none : Option Nat)).deviceConnected = false ∧
    (Infrared.traces Infrared.latch (Infrared.boot none)
        ([.signal 42, .iterate, .connect, .iterate].map
          Infrared.LatchEvent.toEvent)).map notifies = [false, false, false, true] ∧
    (Infrared.traces Infrared.latch (Infrared.boot none)
        ([.signal 42, .iterate, .connect, .iterate].map
          Infrared.LatchEvent.toEvent)).map (fun t => t.filter Effect.isOutput) =
      [[], [], [], [.setValue "button", .notify, .digitalWrite LED_PIN HIGH,
        .digitalWrite LED_PIN LOW]] := by
  decide

/-- C5 amended: with the latch decoder, a result decoded while Disconnected causes no push
and no indicator write during any sequence of loop iterations, further signals and
onDisconnect callbacks, and stays held because the Disconnected loop never consults or
resumes the decoder; the first iteration after the next onConnect pushes and pulses once for
it and resumes the decoder: the trigger is deferred until the peer connects, not dropped. -/
theorem infrared_disconnected_trigger_deferred
    (s : Infrared.State (Option Nat)) (code : Nat) (es : List Infrared.LatchEvent)
    (hc : s.deviceConnected = false) (hheld : s.irrecv = some code)
    (hes : ∀ e ∈ es, e ≠ Infrared.LatchEvent.connect) :
    silent (Infrared.traces Infrared.latch s (es.map Infrared.LatchEvent.toEvent)) = true ∧
    (Infrared.finalState Infrared.latch s
      (es.map Infrared.LatchEvent.toEvent)).irrecv = some code ∧
    (Infrared.loop Infrared.latch (Infrared.onConnect (Infrared.finalState Infrared.latch s
      (es.map Infrared.LatchEvent.toEvent))).1).2 =
      [.irDecode true, .serialPrint "📥 IR Received: ", .serialPrintln (toString code)]
        ++ notifierTrace ++ [.irResume, .delay 10] ∧
    (Infrared.loop Infrared.latch (Infrared.onConnect (Infrared.finalState Infrared.latch s
      (es.map Infrared.LatchEvent.toEvent))).1).1.irrecv = none := by
  obtain ⟨hsil, hfin⟩ := latch_disconnected_run es s code hc hheld hes
  refine ⟨hsil, by rw [hfin, hheld], ?_, ?_⟩
  · rw [hfin]
    simp [Infrared.loop, Infrared.onConnect, Infrared.latch, hheld]
  · rw [hfin]
    simp [Infrared.loop, Infrared.onConnect, Infrared.latch, hheld]

/-- C5 amended, at a concrete run: code 42 held while Disconnected, then an iteration, a
second signal and another iteration, all silent; after onConnect the iteration fires. -/
theorem infrared_disconnected_trigger_deferred_witness :
    silent (Infrared.traces Infrared.latch
      { deviceConnected := false, irrecv := some 42, results := { value := 0 } }
      ([.iterate, .signal 7, .iterate].map Infrared.LatchEvent.toEvent)) = true ∧
    (Infrared.loop Infrared.latch (Infrared.onConnect (Infrared.finalState Infrared.latch
      { deviceConnected := false, irrecv := some 42, results := { value := 0 } }
      ([.iterate, .signal 7, .iterate].map Infrared.LatchEvent.toEvent))).1).1.irrecv
      = none :=
  ⟨(infrared_disconnected_trigger_deferred
      { deviceConnected := false, irrecv := some 42, results := { value := 0 } } 42
      [.iterate, .signal 7, .iterate] rfl rfl (by decide)).1,
   (infrared_disconnected_trigger_deferred
      { deviceConnected := false, irrecv := some 42, results := { value := 0 } } 42
      [.iterate, .signal 7, .iterate] rfl rfl (by decide)).2.2.2⟩

/-! ## Decoder resume discipline (C6) -/

theorem resumeScan_append (t u : List Effect) (a : Bool) :
    Infrared.resumeScan a (t ++ u) =
      (Infrared.resumeScan a t).bind (fun b => Infrared.resumeScan b u) := by
  induction t generalizing a with
  | nil => rfl
  | cons e t ih =>
    cases e <;> cases a <;> simp [Infrared.resumeScan, ih]

theorem infrared_step_scan {D : Type} (lib : Infrared.IRrecv D) (s : Infrared.State D)
    (e : Infrared.Event D) :
    Infrared.resumeScan false (Infrared.step lib s e).2 = some false := by
  cases e with
  | connect => rfl
  | disconnect => rfl
  | world act => rfl
  | iterate =>
    show Infrared.resumeScan false (Infrared.loop lib s).2 = some false
    rcases infrared_loop_cases lib s with ⟨_, _, _, h⟩ | ⟨_, _, _, h⟩ | ⟨_, _, h⟩ <;>
      rw [h] <;> rfl

/-- C6: infrared variant, for every decoder, every state (so every decoded value) and every
run of events: in one loop iteration the result-ready check is made at most once, `resume` is
called once when the iteration is Connected and the check returns true and not at all
otherwise, and over the whole run the trace respects the discipline "every ready `decode` is
followed by exactly one `resume` before the next `decode`, and `resume` only follows a ready
`decode`", ending with no result awaiting resume. -/
theorem infrared_ready_decode_is_resumed {D : Type} (lib : Infrared.IRrecv D)
    (s : Infrared.State D) (es : List (Infrared.Event D)) :
    ((Infrared.loop lib s).2.filter Effect.isPoll).length ≤ 1 ∧
    (Infrared.loop lib s).2.count (Effect.irDecode true) =
      (if s.deviceConnected && Infrared.resultReady lib s then 1 else 0) ∧
    (Infrared.loop lib s).2.count Effect.irResume =
      (if s.deviceConnected && Infrared.resultReady lib s then 1 else 0) ∧
    Infrared.resumeScan false (Infrared.loop lib s).2 = some false ∧
    Infrared.resumeScan false (flatTrace (Infrared.traces lib s es)) = some false := by
  refine ⟨?_, ?_, ?_, infrared_step_scan lib s Infrared.Event.iterate, ?_⟩
  · rcases infrared_loop_cases lib s with ⟨_, _, _, h⟩ | ⟨_, _, _, h⟩ | ⟨_, _, h⟩ <;>
      rw [h] <;> simp [notifierTrace, Effect.isPoll]
  · rcases infrared_loop_cases lib s with ⟨hc, hr, _, h⟩ | ⟨hc, hr, _, h⟩ | ⟨hc, _, h⟩
    · rw [h, hc, hr]; simp [notifierTrace, List.count_cons]
    · rw [h, hc, hr]; simp [List.count_cons]
    · rw [h, hc]; simp [List.count_cons]
  · rcases infrared_loop_cases lib s with ⟨hc, hr, _, h⟩ | ⟨hc, hr, _, h⟩ | ⟨hc, _, h⟩
    · rw [h, hc, hr]; simp [notifierTrace, List.count_cons]
    · rw [h, hc, hr]; simp [List.count_cons]
    · rw [h, hc]; simp [List.count_cons]
  · induction es generalizing s with
    | nil => rfl
    | cons e es ih =>
      simp only [Infrared.traces, flatTrace]
      rw [resumeScan_append, infrared_step_scan lib s e]
      exact ih _

/-! ## Gated polling against ungated polling, button variant (C8) -/

theorem loopPollAlways_outputs (s : Button.State) (pin : Int) :
    (Button.loopPollAlways s pin).2.filter Effect.isOutput =
      (if (s.deviceConnected && Button.edgeDetected s pin) = true then notifierOutputs
        else []) ∧
    (Button.loopPollAlways s pin).1.buttonState = boolToInt (intToBool pin) := by
  by_cases hne : s.buttonState ≠ boolToInt (intToBool pin)
  · by_cases hon : boolToInt (intToBool pin) = Button.buttonOn
    · have hne2 : ¬ s.buttonState = Button.buttonOn := fun h => hne (h.trans hon.symm)
      cases hc : s.deviceConnected <;>
        simp [Button.loopPollAlways, Button.edgeDetected, Button.isOn, hne, hon, hne2, hc,
          notifierOutputs, notifierTrace, Effect.isOutput]
    · simp [Button.loopPollAlways, Button.edgeDetected, Button.isOn, hne, hon,
        Effect.isOutput]
  · have heq : s.buttonState = boolToInt (intToBool pin) := not_not.mp hne
    simp [Button.loopPollAlways, Button.edgeDetected, heq, Effect.isOutput]

theorem notifierOutputs_ne_nil : notifierOutputs ≠ [] := by
  simp [notifierOutputs]

theorem button_output_traces_agree_iff (inputs : List (Bool × Int))
    (sc su : Button.State) :
    Button.outputTraces Button.loop sc inputs =
        Button.outputTraces Button.loopPollAlways su inputs ↔
      Button.reconnectsAgree (decide (sc.buttonState = Button.buttonOn))
        (decide (su.buttonState = Button.buttonOn)) inputs = true := by
  induction inputs generalizing sc su with
  | nil => simp [Button.outputTraces, Button.reconnectsAgree]
  | cons i rest ih =>
    obtain ⟨c, pin⟩ := i
    have hon : decide (boolToInt (intToBool pin) = Button.buttonOn) = Button.isOn pin := rfl
    simp only [Button.outputTraces, List.cons.injEq, ih,
      (button_loop_outputs { sc with deviceConnected := c } pin).1,
      (button_loop_outputs { sc with deviceConnected := c } pin).2,
      (loopPollAlways_outputs { su with deviceConnected := c } pin).1,
      (loopPollAlways_outputs { su with deviceConnected := c } pin).2,
      button_edge_eq]
    clear ih
    have hnil := notifierOutputs_ne_nil
    have hnil2 : ([] : List Effect) ≠ notifierOutputs := fun h => hnil h.symm
    cases c <;> cases hp : Button.isOn pin <;>
      cases hsc : decide (sc.buttonState = Button.buttonOn) <;>
      cases hsu : decide (su.buttonState = Button.buttonOn) <;>
      simp [Button.reconnectsAgree, hp, hsc, hsu, hon, hnil, hnil2]

theorem button_outputs_flat (body : Button.State → Int → Button.State × List Effect)
    (inputs : List (Bool × Int)) (s : Button.State) :
    Button.outputs body s inputs = flatTrace (Button.outputTraces body s inputs) := by
  induction inputs generalizing s with
  | nil => rfl
  | cons i rest ih =>
    obtain ⟨c, pin⟩ := i
    simp only [Button.outputs, Button.outputTraces, flatTrace, ih]

theorem button_outputs_determined (body : Button.State → Int → Button.State × List Effect)
    (hbody : ∀ s pin, (body s pin).2.filter Effect.isOutput = notifierOutputs ∨
      (body s pin).2.filter Effect.isOutput = [])
    (inputs : List (Bool × Int)) (s : Button.State) :
    Button.outputs body s inputs =
      flatTrace (List.replicate ((Button.outputs body s inputs).count Effect.notify)
        notifierOutputs) := by
  induction inputs generalizing s with
  | nil => rfl
  | cons i rest ih =>
    obtain ⟨c, pin⟩ := i
    simp only [Button.outputs]
    have hrest := ih (body { s with deviceConnected := c } pin).1
    rcases hbody { s with deviceConnected := c } pin with h | h
    · rw [h, List.count_append]
      have h1 : List.count Effect.notify notifierOutputs = 1 := by decide
      rw [h1, Nat.add_comm, List.replicate_succ, flatTrace, ← hrest]
    · rw [h, List.nil_append]
      exact hrest

theorem button_loop_outputs_cases (s : Button.State) (pin : Int) :
    (Button.loop s pin).2.filter Effect.isOutput = notifierOutputs ∨
    (Button.loop s pin).2.filter Effect.isOutput = [] := by
  rw [(button_loop_outputs s pin).1]
  by_cases h : (s.deviceConnected && Button.edgeDetected s pin) = true
  · left; rw [if_pos h]
  · right; rw [if_neg h]

theorem loopPollAlways_outputs_cases (s : Button.State) (pin : Int) :
    (Button.loopPollAlways s pin).2.filter Effect.isOutput = notifierOutputs ∨
    (Button.loopPollAlways s pin).2.filter Effect.isOutput = [] := by
  rw [(loopPollAlways_outputs s pin).1]
  by_cases h : (s.deviceConnected && Button.edgeDetected s pin) = true
  · left; rw [if_pos h]
  · right; rw [if_neg h]

theorem reconnectsAgree_of_connected (inputs : List (Bool × Int)) (b : Bool)
    (h : ∀ i ∈ inputs, i.1 = true) : Button.reconnectsAgree b b inputs = true := by
  induction inputs generalizing b with
  | nil => rfl
  | cons i rest ih =>
    obtain ⟨c, pin⟩ := i
    have hc : c = true := h (c, pin) (List.mem_cons_self _ _)
    subst hc
    simp only [Button.reconnectsAgree, beq_self_eq_true, Bool.or_true, Bool.true_and]
    exact ih _ (fun j hj => h j (List.mem_cons_of_mem _ hj))

/-- C8 as stated fails: from boot, with the button pressed in a Disconnected iteration and
still held in the following Connected iteration, the loop as coded pushes and pulses in the
second iteration while the loop that polls in every iteration emits nothing. -/
theorem gated_polling_differs_from_ungated :
    Button.outputs Button.loop Button.boot [(false, LOW), (true, LOW)] =
      [.setValue "button", .notify, .digitalWrite LED_PIN HIGH, .digitalWrite LED_PIN LOW] ∧
    Button.outputs Button.loopPollAlways Button.boot [(false, LOW), (true, LOW)] = [] ∧
    Button.outputs Button.loop Button.boot [(false, LOW), (true, LOW)] ≠
      Button.outputs Button.loopPollAlways Button.boot [(false, LOW), (true, LOW)] := by
  decide

/-- C8 amended: starting from the boot state, the loop as coded and the loop that polls and
updates the stored level in every iteration emit the same wireless pushes and indicator
writes in the same iterations if and only if, at every Connected iteration whose sample is
"on", the sample of the most recent earlier Connected iteration and the sample of the
immediately preceding iteration (each "off" when there is none) are both "on" or both "off";
in that case the two emitted sequences are equal, in particular for every run that is
Connected throughout. Without regard to the iteration in which the effects occur, the two
emitted sequences are equal if and only if the two loops notify the same number of times. -/
theorem gated_polling_agrees_iff (inputs : List (Bool × Int)) :
    (Button.outputTraces Button.loop Button.boot inputs =
        Button.outputTraces Button.loopPollAlways Button.boot inputs ↔
      Button.reconnectsAgree false false inputs = true) ∧
    (Button.reconnectsAgree false false inputs = true →
      Button.outputs Button.loop Button.boot inputs =
        Button.outputs Button.loopPollAlways Button.boot inputs) ∧
    ((∀ i ∈ inputs, i.1 = true) →
      Button.outputs Button.loop Button.boot inputs =
        Button.outputs Button.loopPollAlways Button.boot inputs) ∧
    (Button.outputs Button.loop Button.boot inputs =
        Button.outputs Button.loopPollAlways Button.boot inputs ↔
      (Button.outputs Button.loop Button.boot inputs).count Effect.notify =
        (Button.outputs Button.loopPollAlways Button.boot inputs).count Effect.notify) := by
  have hiff := button_output_traces_agree_iff inputs Button.boot Button.boot
  have hboot : decide (Button.boot.buttonState = Button.buttonOn) = false := by decide
  rw [hboot] at hiff
  have hflat : Button.reconnectsAgree false false inputs = true →
      Button.outputs Button.loop Button.boot inputs =
        Button.outputs Button.loopPollAlways Button.boot inputs := by
    intro h
    rw [button_outputs_flat, button_outputs_flat, hiff.mpr h]
  refine ⟨hiff, hflat, fun h => hflat (reconnectsAgree_of_connected inputs false h),
    fun h => by rw [h], fun h => ?_⟩
  rw [button_outputs_determined Button.loop button_loop_outputs_cases inputs Button.boot,
    button_outputs_determined Button.loopPollAlways loopPollAlways_outputs_cases inputs
      Button.boot, h]

/-- C8 amended, at a concrete run: the button is pressed and released while Disconnected,
the peer connects, and the button is pressed while Connected; both loops emit the same. -/
theorem gated_polling_agrees_iff_witness :
    Button.outputs Button.loop Button.boot
        [(false, LOW), (false, HIGH), (true, HIGH), (true, LOW)] =
      Button.outputs Button.loopPollAlways Button.boot
        [(false, LOW), (false, HIGH), (true, HIGH), (true, LOW)] ∧
    Button.outputs Button.loop Button.boot [(true, HIGH), (true, LOW)] =
      Button.outputs Button.loopPollAlways Button.boot [(true, HIGH), (true, LOW)] :=
  ⟨(gated_polling_agrees_iff
      [(false, LOW), (false, HIGH), (true, HIGH), (true, LOW)]).2.1 (by decide),
   (gated_polling_agrees_iff [(true, HIGH), (true, LOW)]).2.2.1 (by decide)⟩

/-! ## Timing of the main loop (C10) -/

theorem button_loop_timing (s : Button.State) (pin : Int) :
    (notifies (Button.loop s pin).2 = false →
      (Button.loop s pin).2 = [.delay 10] ∨
      (Button.loop s pin).2 = [.digitalRead BUTTON_PIN, .delay 10]) ∧
    (notifies (Button.loop s pin).2 = true →
      (Button.loop s pin).2 =
        [.digitalRead BUTTON_PIN, .serialPrintln "🔘 Button Pressed", .setValue "button",
          .notify] ++ [.digitalWrite LED_PIN HIGH, .delay 200, .digitalWrite LED_PIN LOW]
          ++ [.delay 10]) ∧
    ((Button.loop s pin).2.filter Effect.isPoll).length ≤ 1 ∧
    blockedTime (Button.loop s pin).2 =
      10 + (if notifies (Button.loop s pin).2 then 200 else 0) := by
  rcases button_loop_cases s pin with ⟨_, _, _, h⟩ | ⟨_, _, _, h⟩ | ⟨_, _, h⟩
  · rw [h]
    exact ⟨fun hn => absurd hn (by decide), fun _ => rfl, by decide, by decide⟩
  · rw [h]
    exact ⟨fun _ => Or.inr rfl, fun hn => absurd hn (by decide), by decide, by decide⟩
  · rw [h]
    exact ⟨fun _ => Or.inl rfl, fun hn => absurd hn (by decide), by decide, by decide⟩

theorem infrared_loop_timing {D : Type} (lib : Infrared.IRrecv D) (s : Infrared.State D) :
    (notifies (Infrared.loop lib s).2 = false →
      (Infrared.loop lib s).2 = [.delay 10] ∨
      (Infrared.loop lib s).2 = [.irDecode false, .delay 10]) ∧
    (notifies (Infrared.loop lib s).2 = true →
      (Infrared.loop lib s).2 =
        [.irDecode true, .serialPrint "📥 IR Received: ",
          .serialPrintln (toString (lib.decode s.irrecv s.results).2.2.value),
          .setValue "button", .notify]
          ++ [.digitalWrite LED_PIN HIGH, .delay 200, .digitalWrite LED_PIN LOW]
          ++ [.irResume, .delay 10]) ∧
    ((Infrared.loop lib s).2.filter Effect.isPoll).length ≤ 1 ∧
    blockedTime (Infrared.loop lib s).2 =
      10 + (if notifies (Infrared.loop lib s).2 then 200 else 0) := by
  rcases infrared_loop_cases lib s with ⟨_, _, _, h⟩ | ⟨_, _, _, h⟩ | ⟨_, _, h⟩
  · rw [h]
    refine ⟨fun hn => ?_, fun _ => rfl, ?_, ?_⟩
    · simp [notifies, notifierTrace] at hn
    · simp [notifierTrace, Effect.isPoll]
    · simp [notifies, notifierTrace, blockedTime, Effect.blocked]
  · rw [h]
    exact ⟨fun _ => Or.inr rfl, fun hn => absurd hn (by decide), by decide, by decide⟩
  · rw [h]
    exact ⟨fun _ => Or.inl rfl, fun hn => absurd hn (by decide), by decide, by decide⟩

theorem button_run_timing (es : List Button.Event) (s : Button.State) :
    totalBlocked (Button.traces s es) =
      10 * (es.filter Button.Event.isIterate).length
        + 200 * firingCount (Button.traces s es) := by
  induction es generalizing s with
  | nil => rfl
  | cons e es ih =>
    have ih2 := ih (Button.step s e).1
    simp only [totalBlocked, firingCount, Button.traces, List.map_cons, List.sum_cons,
      List.count_cons] at ih2 ⊢
    rw [ih2]
    cases e with
    | connect =>
      simp [Button.step, Button.onConnect, Button.Event.isIterate, blockedTime,
        Effect.blocked, notifies]
    | disconnect =>
      simp [Button.step, Button.onDisconnect, Button.Event.isIterate, blockedTime,
        Effect.blocked, notifies]
    | iterate pin =>
      simp only [Button.step, Button.Event.isIterate, List.filter_cons_of_pos,
        List.length_cons, (button_loop_timing s pin).2.2.2]
      by_cases hn : notifies (Button.loop s pin).2 = true
      · simp only [hn, if_true, beq_self_eq_true]; omega
      · have hf : notifies (Button.loop s pin).2 = false := by simpa using hn
        simp [hf]; omega

theorem infrared_run_timing {D : Type} (lib : Infrared.IRrecv D)
    (es : List (Infrared.Event D)) (s : Infrared.State D) :
    totalBlocked (Infrared.traces lib s es) =
      10 * (es.filter Infrared.Event.isIterate).length
        + 200 * firingCount (Infrared.traces lib s es) := by
  induction es generalizing s with
  | nil => rfl
  | cons e es ih =>
    have ih2 := ih (Infrared.step lib s e).1
    simp only [totalBlocked, firingCount, Infrared.traces, List.map_cons, List.sum_cons,
      List.count_cons] at ih2 ⊢
    rw [ih2]
    cases e with
    | connect =>
      simp [Infrared.step, Infrared.onConnect, Infrared.Event.isIterate, blockedTime,
        Effect.blocked, notifies]
    | disconnect =>
      simp [Infrared.step, Infrared.onDisconnect, Infrared.Event.isIterate, blockedTime,
        Effect.blocked, notifies]
    | world act =>
      simp [Infrared.step, Infrared.Event.isIterate, blockedTime, notifies]
    | iterate =>
      simp only [Infrared.step, Infrared.Event.isIterate, List.filter_cons_of_pos,
        List.length_cons, (infrared_loop_timing lib s).2.2.2]
      by_cases hn : notifies (Infrared.loop lib s).2 = true
      · simp only [hn, if_true, beq_self_eq_true]; omega
      · have hf : notifies (Infrared.loop lib s).2 = false := by simpa using hn
        simp [hf]; omega

/-- C10: in both variants an iteration in which no event fires performs at most one poll
and then `delay 10`, nothing else; a firing iteration polls once, before the pulse, and
blocks for exactly 200 time units between indicator `HIGH` and indicator `LOW`; every
iteration polls at most once and blocks 10 units plus 200 if it fires; so a run with `n`
loop iterations of which `k` fire blocks for exactly `10 * n + 200 * k` time units. -/
theorem loop_timing (sb : Button.State) (pin : Int) (esb : List Button.Event)
    {D : Type} (lib : Infrared.IRrecv D) (si : Infrared.State D)
    (esi : List (Infrared.Event D)) :
    ((notifies (Button.loop sb pin).2 = false →
        (Button.loop sb pin).2 = [.delay 10] ∨
        (Button.loop sb pin).2 = [.digitalRead BUTTON_PIN, .delay 10]) ∧
      (notifies (Button.loop sb pin).2 = true →
        (Button.loop sb pin).2 =
          [.digitalRead BUTTON_PIN, .serialPrintln "🔘 Button Pressed", .setValue "button",
            .notify] ++ [.digitalWrite LED_PIN HIGH, .delay 200, .digitalWrite LED_PIN LOW]
            ++ [.delay 10]) ∧
      ((Button.loop sb pin).2.filter Effect.isPoll).length ≤ 1 ∧
      blockedTime (Button.loop sb pin).2 =
        10 + (if notifies (Button.loop sb pin).2 then 200 else 0) ∧
      totalBlocked (Button.traces sb esb) =
        10 * (esb.filter Button.Event.isIterate).length
          + 200 * firingCount (Button.traces sb esb)) ∧
    ((notifies (Infrared.loop lib si).2 = false →
        (Infrared.loop lib si).2 = [.delay 10] ∨
        (Infrared.loop lib si).2 = [.irDecode false, .delay 10]) ∧
      (notifies (Infrared.loop lib si).2 = true →
        (Infrared.loop lib si).2 =
          [.irDecode true, .serialPrint "📥 IR Received: ",
            .serialPrintln (toString (lib.decode si.irrecv si.results).2.2.value),
            .setValue "button", .notify]
            ++ [.digitalWrite LED_PIN HIGH, .delay 200, .digitalWrite LED_PIN LOW]
            ++ [.irResume, .delay 10]) ∧
      ((Infrared.loop lib si).2.filter Effect.isPoll).length ≤ 1 ∧
      blockedTime (Infrared.loop lib si).2 =
        10 + (if notifies (Infrared.loop lib si).2 then 200 else 0) ∧
      totalBlocked (Infrared.traces lib si esi) =
        10 * (esi.filter Infrared.Event.isIterate).length
          + 200 * firingCount (Infrared.traces lib si esi)) := by
  obtain ⟨b1, b2, b3, b4⟩ := button_loop_timing sb pin
  obtain ⟨i1, i2, i3, i4⟩ := infrared_loop_timing lib si
  exact ⟨⟨b1, b2, b3, b4, button_run_timing esb sb⟩,
    ⟨i1, i2, i3, i4, infrared_run_timing lib esi si⟩⟩

/-- C10 at concrete inputs: an idle Connected button iteration (button held) and a firing
infrared iteration with the latch decoder holding code 7. -/
theorem loop_timing_witness :
    ((Button.loop { deviceConnected := true, buttonState := LOW } LOW).2 = [.delay 10] ∨
      (Button.loop { deviceConnected := true, buttonState := LOW } LOW).2 =
        [.digitalRead BUTTON_PIN, .delay 10]) ∧
    (Infrared.loop Infrared.latch
        { deviceConnected := true, irrecv := some 7, results := { value := 0 } }).2 =
      [.irDecode true, .serialPrint "📥 IR Received: ",
        .serialPrintln (toString (Infrared.latch.decode (some 7) { value := 0 }).2.2.value),
        .setValue "button", .notify]
        ++ [.digitalWrite LED_PIN HIGH, .delay 200, .digitalWrite LED_PIN LOW]
        ++ [.irResume, .delay 10] :=
  ⟨(loop_timing { deviceConnected := true, buttonState := LOW } LOW [] Infrared.latch
      { deviceConnected := true, irrecv := some 7, results := { value := 0 } } []).1.1
      (by decide),
   (loop_timing { deviceConnected := true, buttonState := LOW } LOW [] Infrared.latch
      { deviceConnected := true, irrecv := some 7, results := { value := 0 } } []).2.2.1
      (by decide)⟩
